import Mathlib

/-!
Shallow embedding of the generic CRUD layer of the `boilerplate` repository
(`app/utils/base/repository.py`, `app/utils/base/router.py`,
`app/utils/base/schema.py`, `app/utils/fastapi_utils/builder.py`,
`app/utils/fastapi_utils/exception.py`) together with its single entity
instantiation (`app/db/models/product.py`, `app/core/product/schema.py`,
`app/core/product/service.py`).

The store owned by a repository is modelled as a `List` of rows; machine
sessions, transactions and the SQL engine are modelled explicitly where the
claims need them (commit outcomes, rollback flags, post-commit store states).
-/

/-- Membership test for character lists: `prefAt n h` is true when `n` occurs
at the very front of `h`.  Helper for the substring test used by the
`IntegrityError` message matching of `save_object`. -/
def prefAt : List Char → List Char → Bool
  | [], _ => true
  | _ :: _, [] => false
  | a :: as, b :: bs => a == b && prefAt as bs

/-- `subAt needle hay` is true when `needle` occurs contiguously somewhere in
`hay`. -/
def subAt (needle : List Char) : List Char → Bool
  | [] => prefAt needle []
  | b :: bs => prefAt needle (b :: bs) || subAt needle bs

/-- Python's `needle in hay` on strings: contiguous-substring containment. -/
def strHasSub (hay needle : String) : Bool :=
  subAt needle.data hay.data

/-- Python's `str.lower` restricted to the ASCII letters that appear in the
database error messages being matched. -/
def strLower (s : String) : String :=
  String.mk (s.data.map Char.toLower)

/-- Exceptions raised by the data-access layer
(`app/utils/fastapi_utils/exception.py`): `NotFoundException` (HTTP 404) and
`ConflictException` (HTTP 409), each carrying a `detail` string. -/
inductive AppExc where
  | notFoundException (detail : String)
  | conflictException (detail : String)
  deriving DecidableEq

/-- Outcome of `AsyncSession.commit()` as observed by `save_object`'s
`try/except IntegrityError` block: success, an `IntegrityError` carrying its
message text, or any other persistence exception (e.g. `OperationalError`),
which the `except IntegrityError` clause does not catch. -/
inductive CommitResult where
  | ok
  | integrityError (msg : String)
  | otherError (msg : String)
  deriving DecidableEq

/-- How `RepositoryBase.save_object` terminates: the saved object is
returned, a `ConflictException` is raised, the caught `IntegrityError` is
re-raised, or an uncaught non-integrity exception propagates. -/
inductive SaveOutcome (α : Type) where
  | saved (obj : α)
  | conflict (detail : String)
  | integrityReraised (msg : String)
  | othErr (msg : String)
  deriving DecidableEq

/-- Result of one `save_object` call: its termination mode plus whether the
call itself executed `self.db.rollback()` before terminating. -/
structure SaveResult (α : Type) where
  outcome : SaveOutcome α
  rolledBack : Bool
  deriving DecidableEq

/-- Message format of `RepositoryBase.get`:
`f"{self.model.__name__} with id {model_id} not found"`. -/
def notFoundMsg (modelName : String) (model_id : Int) : String :=
  modelName ++ " with id " ++ toString model_id ++ " not found"

/-- `ConflictException` detail raised by `save_object` on a matched
uniqueness violation. -/
def duplicateMessage : String := "A record with these details already exists."

/-- `RepositoryBase.get_one`: `select(model).where(model.id == model_id)`
followed by `query_one` (first scalar or `None`).  The table is `db`; the id
column is the projection `id_of`. -/
def RepositoryBase.get_one {α : Type} (id_of : α → Int) (db : List α)
    (model_id : Int) : Option α :=
  db.find? fun r => id_of r == model_id

/-- `RepositoryBase.get`: returns the row found by `get_one`, or raises
`NotFoundException` with the model name and requested id in the message. -/
def RepositoryBase.get {α : Type} (modelName : String) (id_of : α → Int)
    (db : List α) (model_id : Int) : Except AppExc α :=
  match RepositoryBase.get_one id_of db model_id with
  | some obj => .ok obj
  | none => .error (.notFoundException (notFoundMsg modelName model_id))

/-- The `if` condition of `save_object`'s `except IntegrityError` branch:
`"UNIQUE constraint failed" in str(e) or "duplicate key" in str(e).lower()`. -/
def duplicateMatch (msg : String) : Bool :=
  strHasSub msg "UNIQUE constraint failed" || strHasSub (strLower msg) "duplicate key"

/-- `RepositoryBase.save_object`: adds `obj` to the session and commits.
On success the committed store gains the row.  On `IntegrityError` the
session is rolled back and the error is either translated to
`ConflictException` (when `duplicateMatch` holds on the message) or
re-raised; the committed store is unchanged.  A commit failure that is not an
`IntegrityError` is not caught, so it propagates with no rollback executed by
this operation; the committed store is likewise unchanged. -/
def RepositoryBase.save_object {α : Type} (db : List α) (obj : α)
    (commit : CommitResult) : SaveResult α × List α :=
  match commit with
  | .ok => (⟨.saved obj, false⟩, db ++ [obj])
  | .integrityError msg =>
      if duplicateMatch msg then
        (⟨.conflict duplicateMessage, true⟩, db)
      else
        (⟨.integrityReraised msg, true⟩, db)
  | .otherError msg => (⟨.othErr msg, false⟩, db)

/-- SQL `SELECT ... LIMIT lim OFFSET off` over the rows of one table, for
the non-negative arguments the layer is used with (negative values are
clamped; their SQL meaning is engine-specific and outside the claims). -/
def sqlLimitOffset {α : Type} (rows : List α) (lim off : Int) : List α :=
  (rows.drop off.toNat).take lim.toNat

/-- `RepositoryBase.list`: `select(model).limit(page_size).offset(page_number
* page_size)`. -/
def RepositoryBase.list {α : Type} (db : List α) (page_number : Int := 0)
    (page_size : Int := 100) : List α :=
  sqlLimitOffset db page_size (page_number * page_size)

/-- `RepositoryBase.get_rowcount`: `select(func.count())` over the
unrestricted statement, i.e. the total number of rows. -/
def RepositoryBase.get_rowcount {α : Type} (db : List α) : Nat :=
  db.length

/-- The dictionary returned by `RepositoryBase.list_paginated`. -/
structure PaginatedResult (α : Type) where
  records : List α
  record_count : Nat
  page_count : Nat

/-- `RepositoryBase.list_paginated`: the limited/offset page of records, the
total row count, and `page_count = ceil(row_count / page_size) if page_size >
0 else 0` (`math.ceil` over exact division, modelled in `ℚ`). -/
def RepositoryBase.list_paginated {α : Type} (db : List α)
    (page_number : Int := 0) (page_size : Int := 100) : PaginatedResult α :=
  let records := sqlLimitOffset db page_size (page_number * page_size)
  let row_count := RepositoryBase.get_rowcount db
  let page_count :=
    if 0 < page_size then Nat.ceil ((row_count : ℚ) / (page_size : ℚ)) else 0
  ⟨records, row_count, page_count⟩

/-- `RepositoryBase.delete`: fetches via `get` (propagating its
`NotFoundException`, with the store unchanged), then deletes the fetched row
and commits. -/
def RepositoryBase.delete {α : Type} (modelName : String) (id_of : α → Int)
    (db : List α) (model_id : Int) : Except AppExc Unit × List α :=
  match RepositoryBase.get modelName id_of db model_id with
  | .error e => (.error e, db)
  | .ok _ => (.ok (), db.eraseP fun r => id_of r == model_id)

/-- `ServiceBase.list_paginated`: direct delegation to the repository. -/
def ServiceBase.list_paginated {α : Type} (db : List α) (page_number : Int)
    (page_size : Int) : PaginatedResult α :=
  RepositoryBase.list_paginated db page_number page_size

/-- `ServiceBase.get`: direct delegation to the repository. -/
def ServiceBase.get {α : Type} (modelName : String) (id_of : α → Int)
    (db : List α) (model_id : Int) : Except AppExc α :=
  RepositoryBase.get modelName id_of db model_id

/-- `ServiceBase.delete`: direct delegation to the repository. -/
def ServiceBase.delete {α : Type} (modelName : String) (id_of : α → Int)
    (db : List α) (model_id : Int) : Except AppExc Unit × List α :=
  RepositoryBase.delete modelName id_of db model_id

/-- Default of the `page` query parameter of `list_items`
(`CoreRouter.add_list_endpoint`). -/
def CoreRouter.page_default : Int := 1

/-- Default of the `page_size` query parameter of `list_items`. -/
def CoreRouter.page_size_default : Int := 10

/-- The `list_items` route handler installed by
`CoreRouter.add_list_endpoint`: calls
`service.list_paginated(page_number=page - 1, page_size=page_size)`.  The
handler declares plain `int` query parameters, so every integer pair is
accepted. -/
def CoreRouter.list_items {α : Type} (db : List α)
    (page : Int := CoreRouter.page_default)
    (page_size : Int := CoreRouter.page_size_default) : PaginatedResult α :=
  ServiceBase.list_paginated db (page - 1) page_size

/-- The declarative constraints of `PaginationSchema`
(`app/utils/base/schema.py`): `page_size` in `(0, 100]` and `page_number >
0`.  This schema is declared but not referenced by the list route. -/
def PaginationSchema.check (page_size page_number : Int) : Bool :=
  decide ((0 < page_size ∧ page_size ≤ 100) ∧ 0 < page_number)

/-- One entry of a FastAPI/pydantic validation error list: location, message
and error type. -/
structure FieldError where
  loc : List String
  msg : String
  typ : String
  deriving DecidableEq

/-- The `detail` field of an error response body: a plain string or a list of
per-field errors. -/
inductive ErrorDetail where
  | str (s : String)
  | fieldErrors (errs : List FieldError)
  deriving DecidableEq

/-- JSON body produced by every handler of
`FastApiBuilder.handle_exceptions`: exactly the two fields `exception` and
`detail`. -/
structure ErrorBody where
  exception : String
  detail : ErrorDetail
  deriving DecidableEq

/-- An exception reaching the application's exception-handler boundary. The
`ExceptionBase` subclasses and `SystemException` are those of
`app/utils/fastapi_utils/exception.py`; `httpException` is a plain framework
`HTTPException`; `other` is any exception matched by no specific handler. -/
inductive Raised where
  | notFoundException (detail : String)
  | badRequestException (detail : String)
  | unauthorizedException (detail : String)
  | unprocessableEntity (detail : String)
  | conflictException (detail : String)
  | systemException (detail : String)
  | httpException (status : Nat) (detail : String)
  | requestValidationError (errs : List FieldError)
  | validationError (errs : List FieldError)
  | other (info : String)
  deriving DecidableEq

/-- Dispatch of `FastApiBuilder.handle_exceptions`: each handler returns a
`JSONResponse` whose body is `{"exception": exc.__class__.__name__,
"detail": ...}`; the `ExceptionBase` family and `HTTPException`s keep their
own status code and detail, validation errors map to 422 with the error
list, and the catch-all `Exception` handler answers 500 with the fixed body
`{"exception": "InternalServerError", "detail": "Internal Server Error"}`. -/
def FastApiBuilder.handle_exceptions : Raised → Nat × ErrorBody
  | .notFoundException d => (404, ⟨"NotFoundException", .str d⟩)
  | .badRequestException d => (400, ⟨"BadRequestException", .str d⟩)
  | .unauthorizedException d => (401, ⟨"UnauthorizedException", .str d⟩)
  | .unprocessableEntity d => (422, ⟨"UnprocessableEntity", .str d⟩)
  | .conflictException d => (409, ⟨"ConflictException", .str d⟩)
  | .systemException d => (500, ⟨"SystemException", .str d⟩)
  | .httpException status d => (status, ⟨"HTTPException", .str d⟩)
  | .requestValidationError errs => (422, ⟨"RequestValidationError", .fieldErrors errs⟩)
  | .validationError errs => (422, ⟨"ValidationError", .fieldErrors errs⟩)
  | .other _ => (500, ⟨"InternalServerError", .str "Internal Server Error"⟩)

/-- A row of the `product` table (`app/db/models/product.py`): integer
primary key, `name` (`String(256)`, unique), `description` (`String(1024)`),
`price` (`Float` column with check `price >= 0`, modelled as an exact
rational) and `stock` (`Integer` with check `stock >= 0`). -/
structure Product where
  id : Int
  name : String
  description : String
  price : ℚ
  stock : Int
  deriving DecidableEq

/-- Length bound of the `product.name` column type, `String(256)`. -/
def Product.nameColumnLength : Nat := 256

/-- The two column-level check constraints of the `product` table:
`price >= 0` and `stock >= 0`. -/
def Product.checkConstraints (q : Product) : Bool :=
  decide (0 ≤ q.price ∧ 0 ≤ q.stock)

/-- `ProductInSchema` (`app/core/product/schema.py`): the four fields a
create request may supply, with `price : int` and `stock : int`. -/
structure ProductInSchema where
  name : String
  description : String
  price : Int
  stock : Int
  deriving DecidableEq

/-- The declarative field constraints of `ProductInSchema`:
`name: max_length=128`, `description: max_length=1024`, `price: ge=0`,
`stock: ge=0`.  Pydantic accepts a payload exactly when all hold. -/
def ProductInSchema.valid (p : ProductInSchema) : Bool :=
  decide (p.name.length ≤ 128 ∧ p.description.length ≤ 1024 ∧
    0 ≤ p.price ∧ 0 ≤ p.stock)

/-- A decoded create-request JSON object before schema validation: the four
declared members plus whatever unrecognised members (such as `"id"` or
`"product_id"`) the client supplied, kept as raw key/value text. -/
structure RawCreatePayload where
  name : String
  description : String
  price : Int
  stock : Int
  extra : List (String × String)

/-- Pydantic parsing of a decoded object into `ProductInSchema`: the model
config of `SchemaBase` is the `BaseModel` default, which ignores
unrecognised members, so only the four declared fields are kept. -/
def ProductInSchema.parse (raw : RawCreatePayload) : ProductInSchema :=
  { name := raw.name, description := raw.description,
    price := raw.price, stock := raw.stock }

/-- The integer primary key the store assigns at commit time
(`IdIntMixin`: `primary_key=True, autoincrement=True`), modelled as one more
than the largest id in the table. -/
def nextId (db : List Product) : Int :=
  (db.map Product.id).foldr max 0 + 1

/-- Commit outcome of the `product` table: the unique index on `name` makes
the commit fail with an `IntegrityError` naming the violated UNIQUE
constraint when a row with the same name already exists. -/
def productCommit (db : List Product) (obj : Product) : CommitResult :=
  if db.any fun r => r.name == obj.name then
    .integrityError "UNIQUE constraint failed: product.name"
  else
    .ok

/-- The transient entity built by `ProductService.create`:
`Product(name=payload.name, price=payload.price, stock=payload.stock,
description=payload.description)`; its id is the store-assigned key
delivered by the post-commit refresh. -/
def mkProduct (db : List Product) (payload : ProductInSchema) : Product :=
  { id := nextId db, name := payload.name, description := payload.description,
    price := (payload.price : ℚ), stock := payload.stock }

/-- `ProductService.create`: builds the transient `Product` from the
validated payload and delegates to `save_object`, with the commit outcome
delivered by the product table's constraints. -/
def ProductService.create (db : List Product) (payload : ProductInSchema) :
    SaveResult Product × List Product :=
  let obj := mkProduct db payload
  RepositoryBase.save_object db obj (productCommit db obj)

/-- `ProductService.delete`, inherited from `ServiceBase`: delegates to the
repository for the `Product` model. -/
def ProductService.delete (db : List Product) (model_id : Int) :
    Except AppExc Unit × List Product :=
  ServiceBase.delete "Product" Product.id db model_id

/-- Product stores reachable through the write operations the service layer
exposes: the empty store, a create with a payload the input contract
accepted, and a delete.  `get`/`list_paginated` do not change the store. -/
inductive ReachableStore : List Product → Prop where
  | empty : ReachableStore []
  | createStep (db : List Product) (payload : ProductInSchema) :
      ReachableStore db → payload.valid = true →
      ReachableStore (ProductService.create db payload).2
  | deleteStep (db : List Product) (model_id : Int) :
      ReachableStore db → ReachableStore (ProductService.delete db model_id).2

theorem prefAt_extend {n : List Char} (t : List Char) :
    ∀ {h : List Char}, prefAt n h = true → prefAt n (h ++ t) = true := by
  induction n with
  | nil => intro h _; rfl
  | cons a as ih =>
    intro h hp
    cases h with
    | nil => simp [prefAt] at hp
    | cons b bs =>
      simp only [prefAt, Bool.and_eq_true] at hp
      simp only [List.cons_append, prefAt, Bool.and_eq_true]
      exact ⟨hp.1, ih hp.2⟩

theorem prefAt_append_self (n t : List Char) : prefAt n (n ++ t) = true := by
  induction n with
  | nil => rfl
  | cons a as ih => simp [prefAt, ih]

theorem subAt_nil_needle (l : List Char) : subAt [] l = true := by
  cases l <;> simp [subAt, prefAt]

theorem subAt_of_prefAt {n h : List Char} (hp : prefAt n h = true) :
    subAt n h = true := by
  cases h with
  | nil => simpa [subAt] using hp
  | cons b bs => simp [subAt, hp]

theorem subAt_append_left {n xs : List Char} (ys : List Char)
    (h : subAt n xs = true) : subAt n (xs ++ ys) = true := by
  induction xs with
  | nil =>
    cases n with
    | nil => simpa using subAt_nil_needle ys
    | cons a as => simp [subAt, prefAt] at h
  | cons x xs ih =>
    simp only [subAt, Bool.or_eq_true] at h
    rcases h with h | h
    · exact subAt_of_prefAt (prefAt_extend ys h)
    · simp only [List.cons_append, subAt, Bool.or_eq_true]
      exact Or.inr (ih h)

theorem subAt_append_right {n ys : List Char} (xs : List Char)
    (h : subAt n ys = true) : subAt n (xs ++ ys) = true := by
  induction xs with
  | nil => simpa using h
  | cons x xs ih => simp [subAt, ih]

theorem strHasSub_append_left {a n : String} (b : String)
    (h : strHasSub a n = true) : strHasSub (a ++ b) n = true := by
  unfold strHasSub at h ⊢
  rw [String.data_append]
  exact subAt_append_left _ h

theorem strHasSub_append_right {b n : String} (a : String)
    (h : strHasSub b n = true) : strHasSub (a ++ b) n = true := by
  unfold strHasSub at h ⊢
  rw [String.data_append]
  exact subAt_append_right _ h

theorem strHasSub_self (a : String) : strHasSub a a = true := by
  unfold strHasSub
  apply subAt_of_prefAt
  simpa using prefAt_append_self a.data []

theorem notFoundMsg_names_model (m : String) (i : Int) :
    strHasSub (notFoundMsg m i) m = true := by
  unfold notFoundMsg
  exact strHasSub_append_left _ (strHasSub_append_left _
    (strHasSub_append_left _ (strHasSub_self m)))

theorem notFoundMsg_names_id (m : String) (i : Int) :
    strHasSub (notFoundMsg m i) (toString i) = true := by
  unfold notFoundMsg
  exact strHasSub_append_left _ (strHasSub_append_right _ (strHasSub_self _))

theorem list_paginated_records_getElem {α : Type} (db : List α) (pn ps : Int)
    (i : Nat) :
    (RepositoryBase.list_paginated db pn ps).records[i]? =
      if i < ps.toNat then db[(pn * ps).toNat + i]? else none := by
  simp [RepositoryBase.list_paginated, sqlLimitOffset, List.getElem?_take,
    List.getElem?_drop]

theorem list_paginated_records_length {α : Type} (db : List α) (pn ps : Int) :
    (RepositoryBase.list_paginated db pn ps).records.length ≤ ps.toNat := by
  simp only [RepositoryBase.list_paginated, sqlLimitOffset, List.length_take]
  exact min_le_left _ _

theorem ceil_rat_eq_ceilDiv (a b : ℕ) (hb : 0 < b) :
    Nat.ceil ((a : ℚ) / (b : ℚ)) = a ⌈/⌉ b := by
  have hb' : (0 : ℚ) < (b : ℚ) := by exact_mod_cast hb
  apply le_antisymm
  · rw [Nat.ceil_le, div_le_iff₀ hb']
    have h := le_smul_ceilDiv (α := ℕ) (β := ℕ) hb (b := a)
    rw [smul_eq_mul] at h
    have : (a : ℚ) ≤ ((b * (a ⌈/⌉ b) : ℕ) : ℚ) := by exact_mod_cast h
    calc (a : ℚ) ≤ ((b * (a ⌈/⌉ b) : ℕ) : ℚ) := this
      _ = ((a ⌈/⌉ b : ℕ) : ℚ) * (b : ℚ) := by push_cast; ring
  · rw [ceilDiv_le_iff_le_mul hb]
    have h := Nat.le_ceil ((a : ℚ) / (b : ℚ))
    rw [div_le_iff₀ hb'] at h
    exact_mod_cast h.trans_eq (mul_comm _ _)

theorem list_paginated_page_count_pos {α : Type} (db : List α) (pn ps : Int)
    (hps : 0 < ps) :
    (RepositoryBase.list_paginated db pn ps).page_count =
      db.length ⌈/⌉ ps.toNat := by
  have hcast : ((ps : ℚ)) = ((ps.toNat : ℕ) : ℚ) := by
    have := Int.toNat_of_nonneg hps.le
    exact_mod_cast this.symm
  simp only [RepositoryBase.list_paginated, RepositoryBase.get_rowcount,
    if_pos hps]
  rw [hcast]
  exact ceil_rat_eq_ceilDiv _ _ (by omega)

theorem list_paginated_page_count_nonpos {α : Type} (db : List α)
    (pn ps : Int) (hps : ps ≤ 0) :
    (RepositoryBase.list_paginated db pn ps).page_count = 0 := by
  simp [RepositoryBase.list_paginated, not_lt.2 hps]

theorem list_paginated_record_count {α : Type} (db : List α) (pn ps : Int) :
    (RepositoryBase.list_paginated db pn ps).record_count = db.length := rfl

theorem get_one_eq_none_iff {α : Type} (id_of : α → Int) (db : List α)
    (mid : Int) :
    RepositoryBase.get_one id_of db mid = none ↔ ∀ r ∈ db, id_of r ≠ mid := by
  unfold RepositoryBase.get_one
  rw [List.find?_eq_none]
  simp

theorem get_one_some_mem {α : Type} {id_of : α → Int} {db : List α}
    {mid : Int} {r : α} (h : RepositoryBase.get_one id_of db mid = some r) :
    r ∈ db ∧ id_of r = mid := by
  unfold RepositoryBase.get_one at h
  refine ⟨List.mem_of_find?_eq_some h, ?_⟩
  have := List.find?_some h
  simpa using this

theorem get_one_isSome_of_mem {α : Type} {id_of : α → Int} {db : List α}
    {mid : Int} {r : α} (hr : r ∈ db) (hid : id_of r = mid) :
    ∃ s, RepositoryBase.get_one id_of db mid = some s ∧ id_of s = mid := by
  have : (db.find? fun x => id_of x == mid).isSome := by
    rw [List.find?_isSome]
    exact ⟨r, hr, by simp [hid]⟩
  rcases Option.isSome_iff_exists.1 this with ⟨s, hs⟩
  exact ⟨s, hs, (get_one_some_mem hs).2⟩

theorem eraseP_no_match {α : Type} (id_of : α → Int) (db : List α) (mid : Int)
    (hnd : (db.map id_of).Nodup) :
    ∀ r ∈ db.eraseP fun x => id_of x == mid, id_of r ≠ mid := by
  by_cases hex : ∃ a ∈ db, id_of a = mid
  · rcases hex with ⟨a, ha, hida⟩
    rcases List.exists_of_eraseP (p := fun x => id_of x == mid) ha
      (show (id_of a == mid) = true from beq_iff_eq.mpr hida) with
      ⟨b, l₁, l₂, hl₁, hb, hsplit, herase⟩
    rw [herase]
    intro r hr hrid
    rcases List.mem_append.1 hr with hr₁ | hr₂
    · exact hl₁ r hr₁ (by simp [hrid])
    · have hb' : (id_of b == mid) = true := hb
      have hbid : id_of b = mid := eq_of_beq hb'
      rw [hsplit, List.map_append, List.map_cons] at hnd
      have hnd2 : (id_of b :: l₂.map id_of).Nodup := hnd.of_append_right
      have : id_of b ∉ l₂.map id_of := (List.nodup_cons.1 hnd2).1
      exact this (by rw [hbid, ← hrid]; exact List.mem_map_of_mem id_of hr₂)
  · intro r hr
    have hrdb : r ∈ db := List.eraseP_subset _ hr
    exact fun hrid => hex ⟨r, hrdb, hrid⟩

theorem delete_store_subset {α : Type} (modelName : String) (id_of : α → Int)
    (db : List α) (mid : Int) :
    ∀ x ∈ (RepositoryBase.delete modelName id_of db mid).2, x ∈ db := by
  unfold RepositoryBase.delete
  cases RepositoryBase.get modelName id_of db mid with
  | error e => intro x hx; exact hx
  | ok _ => intro x hx; exact List.eraseP_subset _ hx

theorem reachable_name_le (db : List Product) (h : ReachableStore db) :
    ∀ p ∈ db, p.name.length ≤ 128 := by
  induction h with
  | empty => intro p hp; cases hp
  | createStep db payload hdb hvalid ih =>
    intro p hp
    have hname : payload.name.length ≤ 128 :=
      (of_decide_eq_true hvalid).1
    have hp' : p ∈ (RepositoryBase.save_object db (mkProduct db payload)
        (productCommit db (mkProduct db payload))).2 := hp
    rcases hc : productCommit db (mkProduct db payload) with _ | msg | msg <;>
      rw [hc] at hp'
    · rcases List.mem_append.1 hp' with hmem | hmem
      · exact ih p hmem
      · rw [List.mem_singleton.1 hmem]; exact hname
    · by_cases hdup : duplicateMatch msg = true
      · have hp2 : p ∈ db := by
          simpa [RepositoryBase.save_object, hdup] using hp'
        exact ih p hp2
      · have hp2 : p ∈ db := by
          simpa [RepositoryBase.save_object, hdup] using hp'
        exact ih p hp2
    · exact ih p hp'
  | deleteStep db mid hdb ih =>
    intro p hp
    exact ih p (delete_store_subset "Product" Product.id db mid p hp)

/-- Claim C1 counterexample: a commit failure that is not an
`IntegrityError` (here a lost connection) is not caught by `save_object`'s
`except IntegrityError` clause, so it propagates un-translated while the
operation has executed no rollback — refuting the claim that every
non-Conflict persistence failure propagates only after the transaction has
been rolled back. -/
theorem claim_C1_counterexample :
    (RepositoryBase.save_object ([] : List Int) 7
        (.otherError "connection lost")).1.outcome =
      .othErr "connection lost" ∧
    (RepositoryBase.save_object ([] : List Int) 7
        (.otherError "connection lost")).1.rolledBack = false :=
  ⟨rfl, rfl⟩

/-- Claim C1 (amended): when the commit raises an IntegrityError whose
message contains "UNIQUE constraint failed" or, lower-cased, "duplicate
key", `save_object` rolls back and fails with Conflict carrying the
human-readable duplicate message, leaving the store unchanged; an
IntegrityError with any other message is re-raised un-translated after
rollback; a persistence failure that is not an IntegrityError propagates
un-translated without `save_object` performing a rollback. -/
theorem claim_C1_save_object_conflict {α : Type} (db : List α) (obj : α)
    (msg : String) :
    (strHasSub msg "UNIQUE constraint failed" = true ∨
        strHasSub (strLower msg) "duplicate key" = true →
      RepositoryBase.save_object db obj (.integrityError msg) =
        (⟨.conflict duplicateMessage, true⟩, db)) ∧
    (strHasSub msg "UNIQUE constraint failed" = false ∧
        strHasSub (strLower msg) "duplicate key" = false →
      RepositoryBase.save_object db obj (.integrityError msg) =
        (⟨.integrityReraised msg, true⟩, db)) ∧
    RepositoryBase.save_object db obj (.otherError msg) =
      (⟨.othErr msg, false⟩, db) := by
  refine ⟨fun h => ?_, fun h => ?_, rfl⟩
  · have hd : duplicateMatch msg = true := by
      unfold duplicateMatch
      rcases h with h | h <;> simp [h]
    simp [RepositoryBase.save_object, hd]
  · have hd : duplicateMatch msg = false := by
      unfold duplicateMatch
      simp [h.1, h.2]
    simp [RepositoryBase.save_object, hd]

/-- Claim C1 witness: the three branches at concrete IntegrityError
messages (SQLite unique-violation text, Postgres duplicate-key text, and a
non-matching foreign-key text). -/
theorem claim_C1_save_object_conflict_witness :
    RepositoryBase.save_object ([] : List Int) 7
        (.integrityError "UNIQUE constraint failed: product.name") =
      (⟨.conflict duplicateMessage, true⟩, []) ∧
    RepositoryBase.save_object ([] : List Int) 7
        (.integrityError "ERROR: Duplicate Key value violates unique constraint") =
      (⟨.conflict duplicateMessage, true⟩, []) ∧
    RepositoryBase.save_object ([] : List Int) 7
        (.integrityError "FOREIGN KEY constraint failed") =
      (⟨.integrityReraised "FOREIGN KEY constraint failed", true⟩, []) :=
  ⟨(claim_C1_save_object_conflict [] 7 _).1 (Or.inl (by decide)),
   (claim_C1_save_object_conflict [] 7 _).1 (Or.inr (by decide)),
   (claim_C1_save_object_conflict [] 7 _).2.1 (by decide)⟩

/-- Claim C2: for page_number ≥ 0 and page_size > 0, `list_paginated`
returns at most page_size records, the record at index i of the page is the
store row at offset page_number*page_size + i, record_count is the total
number of stored rows, and page_count is the ceiling division of
record_count by page_size; for page_size ≤ 0, page_count is 0. -/
theorem claim_C2_list_paginated {α : Type} (db : List α) (pn ps : Int) :
    (0 ≤ pn → 0 < ps →
      (RepositoryBase.list_paginated db pn ps).records.length ≤ ps.toNat ∧
      (∀ i : Nat, (RepositoryBase.list_paginated db pn ps).records[i]? =
        if i < ps.toNat then db[(pn * ps).toNat + i]? else none) ∧
      (RepositoryBase.list_paginated db pn ps).record_count = db.length ∧
      (RepositoryBase.list_paginated db pn ps).page_count =
        (RepositoryBase.list_paginated db pn ps).record_count ⌈/⌉ ps.toNat) ∧
    (ps ≤ 0 → (RepositoryBase.list_paginated db pn ps).page_count = 0) := by
  refine ⟨fun _ hps => ⟨list_paginated_records_length db pn ps,
      fun i => list_paginated_records_getElem db pn ps i,
      list_paginated_record_count db pn ps, ?_⟩,
    fun hps => list_paginated_page_count_nonpos db pn ps hps⟩
  rw [list_paginated_record_count]
  exact list_paginated_page_count_pos db pn ps hps

/-- Claim C2 witness: three stored rows, page 0 of size 2. -/
theorem claim_C2_list_paginated_witness :
    (RepositoryBase.list_paginated ([10, 20, 30] : List Int) 0 2).record_count = 3 ∧
    (RepositoryBase.list_paginated ([10, 20, 30] : List Int) 0 2).page_count = 2 ∧
    (RepositoryBase.list_paginated ([10, 20, 30] : List Int) 0 2).records[0]? = some 10 ∧
    (RepositoryBase.list_paginated ([10, 20, 30] : List Int) 0 (-1)).page_count = 0 := by
  have h := claim_C2_list_paginated ([10, 20, 30] : List Int) 0 2
  have h1 := h.1 (by decide) (by decide)
  exact ⟨h1.2.2.1, h1.2.2.2.trans (by decide), (h1.2.1 0).trans (by decide),
    (claim_C2_list_paginated ([10, 20, 30] : List Int) 0 (-1)).2 (by decide)⟩

/-- Claim C3: `get_one` returns the matching row when one exists and `none`
otherwise, raising nothing on a miss; `get` returns the row `get_one` found
or fails with a `NotFoundException` whose message contains the model's name
and the requested id. -/
theorem claim_C3_get_one_and_get {α : Type} (modelName : String)
    (id_of : α → Int) (db : List α) (mid : Int) :
    (∀ r, RepositoryBase.get_one id_of db mid = some r →
      r ∈ db ∧ id_of r = mid ∧
      RepositoryBase.get modelName id_of db mid = .ok r) ∧
    (RepositoryBase.get_one id_of db mid = none ↔ ∀ r ∈ db, id_of r ≠ mid) ∧
    ((∃ r ∈ db, id_of r = mid) →
      ∃ s, RepositoryBase.get_one id_of db mid = some s ∧ id_of s = mid) ∧
    (RepositoryBase.get_one id_of db mid = none →
      RepositoryBase.get modelName id_of db mid =
        .error (.notFoundException (notFoundMsg modelName mid)) ∧
      strHasSub (notFoundMsg modelName mid) modelName = true ∧
      strHasSub (notFoundMsg modelName mid) (toString mid) = true) := by
  refine ⟨fun r h => ?_, get_one_eq_none_iff id_of db mid, fun h => ?_, fun h => ?_⟩
  · obtain ⟨hm, hi⟩ := get_one_some_mem h
    refine ⟨hm, hi, ?_⟩
    unfold RepositoryBase.get
    rw [h]
  · obtain ⟨r, hr, hid⟩ := h
    exact get_one_isSome_of_mem hr hid
  · refine ⟨?_, notFoundMsg_names_model modelName mid,
      notFoundMsg_names_id modelName mid⟩
    unfold RepositoryBase.get
    rw [h]

/-- Claim C3 witness: a hit on a one-row store and a miss on the empty
store. -/
theorem claim_C3_get_one_and_get_witness :
    RepositoryBase.get "Product" Product.id
        ([⟨1, "Widget", "d", 5, 3⟩] : List Product) 1 =
      .ok ⟨1, "Widget", "d", 5, 3⟩ ∧
    RepositoryBase.get_one Product.id ([] : List Product) 2 = none ∧
    RepositoryBase.get "Product" Product.id ([] : List Product) 2 =
      .error (.notFoundException (notFoundMsg "Product" 2)) ∧
    strHasSub (notFoundMsg "Product" 2) "Product" = true := by
  have h1 := claim_C3_get_one_and_get "Product" Product.id
    ([⟨1, "Widget", "d", 5, 3⟩] : List Product) 1
  have h2 := claim_C3_get_one_and_get "Product" Product.id
    ([] : List Product) 2
  refine ⟨(h1.1 ⟨1, "Widget", "d", 5, 3⟩ rfl).2.2, h2.2.1.mpr ?_,
    (h2.2.2.2 rfl).1, (h2.2.2.2 rfl).2.1⟩
  intro r hr
  cases hr

/-- Claim C4: `delete` on an absent id fails with the `NotFoundException`
of `get` and leaves the store unchanged; on a present id (under the
primary-key uniqueness invariant) it succeeds, removes exactly one row, and
a subsequent `get` on the same id fails with `NotFoundException`. -/
theorem claim_C4_delete {α : Type} (modelName : String) (id_of : α → Int)
    (db : List α) (mid : Int) :
    ((∀ r ∈ db, id_of r ≠ mid) →
      (RepositoryBase.delete modelName id_of db mid).1 =
        .error (.notFoundException (notFoundMsg modelName mid)) ∧
      (RepositoryBase.delete modelName id_of db mid).2 = db) ∧
    ((db.map id_of).Nodup → ∀ r ∈ db, id_of r = mid →
      (RepositoryBase.delete modelName id_of db mid).1 = .ok () ∧
      (RepositoryBase.delete modelName id_of db mid).2.length + 1 = db.length ∧
      RepositoryBase.get modelName id_of
          (RepositoryBase.delete modelName id_of db mid).2 mid =
        .error (.notFoundException (notFoundMsg modelName mid))) := by
  constructor
  · intro hno
    have hget : RepositoryBase.get modelName id_of db mid =
        .error (.notFoundException (notFoundMsg modelName mid)) := by
      unfold RepositoryBase.get
      rw [(get_one_eq_none_iff id_of db mid).mpr hno]
    constructor
    · show (RepositoryBase.delete modelName id_of db mid).1 = _
      unfold RepositoryBase.delete
      rw [hget]
    · show (RepositoryBase.delete modelName id_of db mid).2 = db
      unfold RepositoryBase.delete
      rw [hget]
  · intro hnd r hr hid
    obtain ⟨s, hs, _⟩ := get_one_isSome_of_mem hr hid
    have hgetok : RepositoryBase.get modelName id_of db mid = .ok s := by
      unfold RepositoryBase.get
      rw [hs]
    have hdel : RepositoryBase.delete modelName id_of db mid =
        (.ok (), db.eraseP fun x => id_of x == mid) := by
      unfold RepositoryBase.delete
      rw [hgetok]
    have hlen : (db.eraseP fun x => id_of x == mid).length = db.length - 1 :=
      List.length_eraseP_of_mem hr (by simp [hid])
    have hpos : 1 ≤ db.length := List.length_pos.mpr (List.ne_nil_of_mem hr)
    have hnone : RepositoryBase.get_one id_of
        (db.eraseP fun x => id_of x == mid) mid = none :=
      (get_one_eq_none_iff _ _ _).mpr (eraseP_no_match id_of db mid hnd)
    refine ⟨?_, ?_, ?_⟩
    · rw [hdel]
    · rw [hdel]
      show (db.eraseP fun x => id_of x == mid).length + 1 = db.length
      omega
    · rw [hdel]
      show RepositoryBase.get modelName id_of
        (db.eraseP fun x => id_of x == mid) mid = _
      unfold RepositoryBase.get
      rw [hnone]

/-- Claim C4 witness: deleting an absent id from the empty store, and
deleting the single row of a one-row store then re-fetching it. -/
theorem claim_C4_delete_witness :
    (RepositoryBase.delete "Product" Product.id ([] : List Product) 5).1 =
      .error (.notFoundException (notFoundMsg "Product" 5)) ∧
    (RepositoryBase.delete "Product" Product.id ([] : List Product) 5).2 = [] ∧
    (RepositoryBase.delete "Product" Product.id
        ([⟨1, "A", "d", 1, 1⟩] : List Product) 1).1 = .ok () ∧
    (RepositoryBase.delete "Product" Product.id
        ([⟨1, "A", "d", 1, 1⟩] : List Product) 1).2.length + 1 = 1 ∧
    RepositoryBase.get "Product" Product.id
        (RepositoryBase.delete "Product" Product.id
          ([⟨1, "A", "d", 1, 1⟩] : List Product) 1).2 1 =
      .error (.notFoundException (notFoundMsg "Product" 1)) := by
  have h1 := (claim_C4_delete "Product" Product.id ([] : List Product) 5).1
    (by intro r hr; cases hr)
  have h2 := (claim_C4_delete "Product" Product.id
      ([⟨1, "A", "d", 1, 1⟩] : List Product) 1).2
    (by decide) ⟨1, "A", "d", 1, 1⟩ (List.mem_singleton.mpr rfl) rfl
  exact ⟨h1.1, h1.2, h2.1, h2.2.1, h2.2.2⟩

/-- Claim C5: `page` is 1-based with default 1, `page_size` defaults to 10,
and `list_items` invokes the service layer's `list_paginated` with
`page_number = page - 1` and `page_size` unchanged, so for page ≥ 1 and
page_size > 0 the page starts at offset (page-1)*page_size. -/
theorem claim_C5_list_items_conversion {α : Type} (db : List α)
    (page ps : Int) :
    CoreRouter.page_default = 1 ∧ CoreRouter.page_size_default = 10 ∧
    CoreRouter.list_items db page ps =
      ServiceBase.list_paginated db (page - 1) ps ∧
    (1 ≤ page → 0 < ps → ∀ i : Nat,
      (CoreRouter.list_items db page ps).records[i]? =
        if i < ps.toNat then db[((page - 1) * ps).toNat + i]? else none) :=
  ⟨rfl, rfl, rfl,
    fun _ _ i => list_paginated_records_getElem db (page - 1) ps i⟩

/-- Claim C5 witness: page 2 of size 2 over three rows starts at the third
row. -/
theorem claim_C5_list_items_conversion_witness :
    (CoreRouter.list_items ([10, 20, 30] : List Int) 2 2).records[0]? =
      some 30 :=
  ((claim_C5_list_items_conversion ([10, 20, 30] : List Int) 2 2).2.2.2
    (by decide) (by decide) 0).trans (by decide)

/-- Claim C6: the input contract constrains price and stock to be ≥ 0 and
its price field is an integer, and the stored row built from an accepted
payload carries that integer price and satisfies the storage-level check
constraints, which hold of a row exactly when its price and stock are
non-negative. -/
theorem claim_C6_price_stock_constraints (db : List Product)
    (payload : ProductInSchema) (h : payload.valid = true) :
    0 ≤ payload.price ∧ 0 ≤ payload.stock ∧
    Product.checkConstraints (mkProduct db payload) = true ∧
    (mkProduct db payload).price = ((payload.price : Int) : ℚ) ∧
    (∀ q : Product,
      Product.checkConstraints q = true ↔ 0 ≤ q.price ∧ 0 ≤ q.stock) := by
  obtain ⟨_, _, h3, h4⟩ := of_decide_eq_true h
  refine ⟨h3, h4, ?_, rfl, fun q => decide_eq_true_iff⟩
  refine decide_eq_true ⟨?_, h4⟩
  show (0 : ℚ) ≤ ((payload.price : Int) : ℚ)
  exact_mod_cast h3

/-- Claim C6 witness: the spec's concrete create payload. -/
theorem claim_C6_price_stock_constraints_witness :
    Product.checkConstraints
      (mkProduct []
        ⟨"Test Product", "A test product description", 1000, 10⟩) = true ∧
    (mkProduct []
      ⟨"Test Product", "A test product description", 1000, 10⟩).price =
      (1000 : ℚ) := by
  have h := claim_C6_price_stock_constraints []
    ⟨"Test Product", "A test product description", 1000, 10⟩ (by decide)
  exact ⟨h.2.2.1, h.2.2.2.1.trans (by norm_num)⟩

/-- Claim C7: every handler's body is exactly an exception name plus a
detail that is a string or a list of field errors, and an exception matched
by no specific handler maps to HTTP 500 with the fixed opaque body, leaking
nothing of the exception's content. -/
theorem claim_C7_error_responses (e : Raised) :
    ((∃ s, (FastApiBuilder.handle_exceptions e).2.detail = .str s) ∨
      (∃ errs, (FastApiBuilder.handle_exceptions e).2.detail =
        .fieldErrors errs)) ∧
    (∀ info : String, FastApiBuilder.handle_exceptions (.other info) =
      (500, ⟨"InternalServerError", .str "Internal Server Error"⟩)) := by
  constructor
  · cases e <;> first
      | exact Or.inl ⟨_, rfl⟩
      | exact Or.inr ⟨_, rfl⟩
  · intro info
    rfl

/-- Claim C8: the list endpoint validates nothing: for every integer pair,
including values `PaginationSchema` would reject, the request is processed,
`page - 1` is handed to the data-access layer, and the full result is
computed. -/
theorem claim_C8_no_pagination_validation {α : Type} (db : List α)
    (page ps : Int) (_h : PaginationSchema.check ps page = false) :
    CoreRouter.list_items db page ps =
      ServiceBase.list_paginated db (page - 1) ps ∧
    (CoreRouter.list_items db page ps).record_count = db.length :=
  ⟨rfl, rfl⟩

/-- Claim C8 witness: `page = 0, page_size = 0` violates the schema yet is
accepted, handing page_number = -1 downstream. -/
theorem claim_C8_no_pagination_validation_witness :
    PaginationSchema.check 0 0 = false ∧
    (CoreRouter.list_items ([5] : List Int) 0 0).record_count = 1 :=
  ⟨by decide, (claim_C8_no_pagination_validation ([5] : List Int) 0 0
    (by decide)).2⟩

/-- Claim C9: schema parsing keeps only the four declared fields, so any
extra members (such as a client-supplied id) never reach the constructed
entity, whose id is the store-assigned key and whose other fields are
exactly the four inputs. -/
theorem claim_C9_create_ignores_extra (db : List Product)
    (raw : RawCreatePayload) (e : List (String × String)) :
    ProductInSchema.parse { raw with extra := e } =
      ProductInSchema.parse raw ∧
    ProductService.create db (ProductInSchema.parse { raw with extra := e }) =
      ProductService.create db (ProductInSchema.parse raw) ∧
    (mkProduct db (ProductInSchema.parse raw)).id = nextId db ∧
    (mkProduct db (ProductInSchema.parse raw)).name = raw.name ∧
    (mkProduct db (ProductInSchema.parse raw)).description =
      raw.description ∧
    (mkProduct db (ProductInSchema.parse raw)).price =
      ((raw.price : Int) : ℚ) ∧
    (mkProduct db (ProductInSchema.parse raw)).stock = raw.stock :=
  ⟨rfl, rfl, rfl, rfl, rfl, rfl, rfl⟩

/-- Claim C10: every store reachable through the service layer's write
operations holds only rows whose name length is at most 128, though the
storage column itself permits 256 characters. -/
theorem claim_C10_persisted_name_invariant (db : List Product)
    (h : ReachableStore db) :
    Product.nameColumnLength = 256 ∧
    ∀ p ∈ db, p.name.length ≤ 128 ∧
      p.name.length ≤ Product.nameColumnLength := by
  refine ⟨rfl, fun p hp => ?_⟩
  have hle := reachable_name_le db h p hp
  exact ⟨hle, hle.trans (by norm_num [Product.nameColumnLength])⟩

/-- Claim C10 witness: the store obtained by one accepted create on the
empty store. -/
theorem claim_C10_persisted_name_invariant_witness :
    (mkProduct [] ⟨"Widget", "desc", 5, 2⟩).name.length ≤ 128 := by
  have h := claim_C10_persisted_name_invariant
    (ProductService.create [] ⟨"Widget", "desc", 5, 2⟩).2
    (ReachableStore.createStep [] ⟨"Widget", "desc", 5, 2⟩
      ReachableStore.empty (by decide))
  exact (h.2 (mkProduct [] ⟨"Widget", "desc", 5, 2⟩)
    (List.mem_singleton.mpr rfl)).1
